import Mathlib

/-!
Shallow embedding of the playback engine of `src/services/player.ts`.

The engine is a single class holding a queue of songs, a cursor
(`queuePosition`), a transport status, an audio player handle and a
disconnect timer.  Every method of the class is translated below into a
pure function from an environment (the external collaborators: settings
store, media resolver, file cache, shuffle randomness) and a state to a
new state paired with an `Except` result; a thrown JS exception becomes
an `Except.error`.  JS array operations (`slice`, `splice`) are modelled
with their ECMAScript clamping semantics, and JS truthiness tests on
numbers and strings are modelled explicitly.
-/

deriving instance DecidableEq for Except

/-- Source kind of a track, from the `MediaSource` enum. -/
inductive MediaSource where
  | Youtube
  | HLS
deriving DecidableEq, Repr

/-- Playlist reference carried by a queued song, from `QueuedPlaylist`. -/
structure QueuedPlaylist where
  title : String
  source : String
deriving DecidableEq, Repr

/-- A queued track, from `SongMetadata` and `QueuedSong`.  Numeric fields
are modelled as `Int` (JS numbers used integrally here). -/
structure QueuedSong where
  title : String
  artist : String
  url : String
  length : Int
  offset : Int
  playlist : Option QueuedPlaylist
  isLive : Bool
  thumbnailUrl : Option String
  source : MediaSource
  addedInChannelId : String
  requestedBy : String
deriving DecidableEq, Repr

/-- Transport status, from the `STATUS` enum. -/
inductive STATUS where
  | PLAYING
  | PAUSED
  | IDLE
deriving DecidableEq, Repr

/-- Errors thrown by the engine or its collaborators.  Each constructor
stands for one of the `Error` messages thrown in the source, plus
`fetch` for upstream fetch failures that carry an HTTP status code and
`jsTypeError` for the runtime error raised when the source reads a
property of `undefined`. -/
inductive PlayerError where
  | notConnected
  | noSongPlaying
  | queueEmpty
  | seekOutOfRange
  | notPlaying
  | noMoreTracks
  | noPreviousTrack
  | moveIndexOutOfRange
  | settingsNotFound
  | noSuitableFormat
  | fetch (statusCode : Int)
  | jsTypeError
deriving DecidableEq, Repr

/-- Status code attached to an error, as read by `play` via
`(error as {statusCode: number}).statusCode`; only fetch failures carry
one. -/
def PlayerError.statusCode? : PlayerError → Option Int
  | .fetch c => some c
  | _ => none

/-- Per-guild settings row, from `prisma.setting`. -/
structure GuildSettings where
  secondsToWaitAfterQueueEmpties : Int
deriving DecidableEq, Repr

/-- Handle on the `@discordjs/voice` audio player owned by the engine.
Only the pause/stop observability matters to the engine. -/
structure AudioPlayerH where
  paused : Bool
  stopped : Bool
deriving DecidableEq, Repr

/-- JS truthiness of an optional number: `undefined` and `0` are falsy. -/
def jsTruthyNum : Option Int → Bool
  | none => false
  | some n => n != 0

/-- JS truthiness of a string: only the empty string is falsy. -/
def jsTruthyStr (s : String) : Bool :=
  s != ""

/-- ECMAScript index clamping used by `Array.prototype.slice` and
`Array.prototype.splice`: a negative index counts from the end and is
clamped at 0, a large index is clamped at the length. -/
def jsClamp (len : Nat) (i : Int) : Nat :=
  if i < 0 then ((len : Int) + i).toNat else min i.toNat len

/-- JS `arr.slice(i)`. -/
def jsSliceFrom (l : List α) (i : Int) : List α :=
  l.drop (jsClamp l.length i)

/-- JS `arr.slice(0, i)`. -/
def jsSliceTo (l : List α) (i : Int) : List α :=
  l.take (jsClamp l.length i)

/-- JS `arr.splice(start, deleteCount)`: returns the removed elements and
the remaining array.  The delete count is clamped to `[0, len - start]`. -/
def jsSpliceRemove (l : List α) (start deleteCount : Int) : List α × List α :=
  let st := jsClamp l.length start
  let d := min deleteCount.toNat (l.length - st)
  ((l.drop st).take d, l.take st ++ l.drop (st + d))

/-- Comparator for a descending sort by an optional numeric key: the JS
comparator subtracts the keys, and a comparison involving `undefined`
yields NaN, which the JS sort treats as 0 (a tie). -/
def keyDescLe (key : α → Option Int) (a b : α) : Bool :=
  match key a, key b with
  | some x, some y => decide (y ≤ x)
  | _, _ => true

/-- Stable descending sort by an optional numeric key, modelling the JS
stable `Array.prototype.sort`. -/
def sortByKeyDesc (key : α → Option Int) (l : List α) : List α :=
  l.insertionSort fun a b => keyDescLe key a b = true

example : jsSliceFrom [1,2,3,4] 2 = [3,4] := by decide
example : jsSliceFrom [1,2,3,4] (-1) = [4] := by decide
example : jsSliceTo [1,2,3,4] 7 = [1,2,3,4] := by decide
example : jsSpliceRemove [1,2,3,4] 1 2 = ([2,3], [1,4]) := by decide
example : jsSpliceRemove [1,2,3,4] (-2) 9 = ([3,4], [1,2]) := by decide
example : sortByKeyDesc (fun n => some n) [1,3,2] = [3,2,1] := by decide

/-- Candidate media stream metadata, from `ytdl.videoFormat`.  The
`audioSampleRate` string is modelled pre-parsed as a number, matching
the `parseInt` call in the source; the three bitrate fields are
optional, matching the partial typings. -/
structure VideoFormat where
  itag : Int
  url : String
  codecs : Option String
  container : Option String
  audioSampleRate : Option Int
  audioBitrate : Option Int
  averageBitrate : Option Int
  bitrate : Option Int
  isLive : Bool
deriving DecidableEq, Repr

/-- Resolver result, from `ytdl.getInfo`: the candidate list plus the
fields of `videoDetails` consulted by `getStream`. -/
structure VideoInfo where
  formats : List VideoFormat
  isLiveContent : Bool
  lengthSeconds : Int
deriving DecidableEq, Repr

/-- Exact-match filter from `getStream`: a candidate already in the
opus codec, webm container, 48000 sample-rate triple. -/
def isExactTarget (f : VideoFormat) : Bool :=
  f.codecs == some "opus" && f.container == some "webm" &&
    f.audioSampleRate == some 48000

/-- Preferred itag tiers consulted for live content, from the literal
array in `nextBestFormat`. -/
def liveItagTiers : List Int := [128, 127, 120, 96, 95, 94, 93]

/-- Live branch of `nextBestFormat`: sort all candidates by descending
audio bitrate and take the first whose itag is in the preferred tiers. -/
def livePick (formats : List VideoFormat) : Option VideoFormat :=
  (sortByKeyDesc (fun f => f.audioBitrate) formats).find?
    (fun f => f.itag ∈ liveItagTiers)

/-- Non-live branch of `nextBestFormat`: keep candidates with a truthy
average bitrate, sort by descending average bitrate, prefer the first
without a truthy peak-bitrate tag, else the head of the sorted list. -/
def nonLivePick (formats : List VideoFormat) : Option VideoFormat :=
  let g := sortByKeyDesc (fun f => f.averageBitrate)
    (formats.filter (fun f => jsTruthyNum f.averageBitrate))
  (g.find? (fun f => ¬ jsTruthyNum f.bitrate)).orElse (fun _ => g.head?)

/-- Translation of the inner `nextBestFormat` function of `getStream`.
On an empty candidate list the source reads `formats[0].isLive`, which
raises a runtime TypeError; `.ok none` models `undefined` being
returned to the caller. -/
def nextBestFormat (formats : List VideoFormat) :
    Except PlayerError (Option VideoFormat) :=
  match formats with
  | [] => .error .jsTypeError
  | f0 :: _ =>
    if f0.isLive then
      .ok (livePick formats)
    else
      .ok (nonLivePick formats)

/-- Format selection of `getStream` on a cache miss: the exact-match
fast path, then `nextBestFormat`, then the `NoSuitableFormat` throw
when nothing was found. -/
def chooseFormat (info : VideoInfo) : Except PlayerError VideoFormat :=
  match info.formats.find? isExactTarget with
  | some f => .ok f
  | none =>
    match nextBestFormat info.formats with
    | .error e => .error e
    | .ok none => .error .noSuitableFormat
    | .ok (some f) => .ok f

/-- Format-selection policy as worded by the specification, parametrised
by the liveness flag used to pick the live branch.  Step order: exact
target triple; if live, descending-bitrate scan for a preferred tier
tag; otherwise candidates with a known average bitrate in descending
order preferring an entry lacking an explicit peak-bitrate tag, falling
back to the single highest; `NoSuitableFormat` when nothing survives. -/
def specFormatPolicyWith (live : Bool) (info : VideoInfo) :
    Except PlayerError VideoFormat :=
  match info.formats.find? isExactTarget with
  | some f => .ok f
  | none =>
    match (if live then livePick info.formats else nonLivePick info.formats) with
    | some f => .ok f
    | none => .error .noSuitableFormat

/-- Format-selection policy exactly as claimed: the live branch is taken
when the content is live. -/
def specFormatPolicyClaimed (info : VideoInfo) : Except PlayerError VideoFormat :=
  specFormatPolicyWith info.isLiveContent info

/-- Format-selection policy as amended: the live branch is taken when the
first candidate carries the live flag, as the source tests
`formats[0].isLive`. -/
def specFormatPolicyAmended (info : VideoInfo) : Except PlayerError VideoFormat :=
  specFormatPolicyWith (info.formats.head?.elim false (fun f => f.isLive)) info

/-- Invocation of the ffmpeg transcode pipeline produced by `getStream`
and consumed by `createReadStream`: the input (a URL or cached path),
the seek and stop trim arguments actually pushed, whether the
reconnect-on-drop options were engaged and whether the raw output is
teed into the cache. -/
structure StreamRequest where
  input : String
  seekArg : Option Int
  toArg : Option Int
  reconnect : Bool
  cache : Bool
deriving DecidableEq, Repr

/-- Options passed to `getStream`. -/
structure StreamOptions where
  seek : Option Int := none
  toBound : Option Int := none
deriving DecidableEq, Repr

/-- External collaborators of the engine: the settings store, the file
cache (by cache key), the media resolver, and the randomness used by
shuffle. -/
structure Env where
  settings : Option GuildSettings
  cachedPath : String → Option String
  getInfo : String → Except PlayerError VideoInfo
  shuffleFn : List QueuedSong → List QueuedSong

/-- Cache key of a URL, from `getHashForCache`; the hasha digest is
modelled by the URL itself, an injective stand-in. -/
def getHashForCache (url : String) : String := url

/-- Translation of `getStream`.  HLS sources pass through directly; for
the rest, a cache hit feeds the cached path with only the trim
arguments, and a cache miss resolves candidates, selects a format,
computes cacheability (not live, shorter than 30 minutes, untrimmed
fetch) and engages the reconnect options.  Both `-ss` and `-to` are
pushed only when the option is JS-truthy. -/
def getStreamModel (env : Env) (song : QueuedSong) (options : StreamOptions) :
    Except PlayerError StreamRequest :=
  if song.source = .HLS then
    .ok ⟨song.url, none, none, false, false⟩
  else
    match env.cachedPath (getHashForCache song.url) with
    | some path =>
      .ok ⟨path,
        if jsTruthyNum options.seek then options.seek else none,
        if jsTruthyNum options.toBound then options.toBound else none,
        false, false⟩
    | none =>
      match env.getInfo song.url with
      | .error e => .error e
      | .ok info =>
        match chooseFormat info with
        | .error e => .error e
        | .ok fmt =>
          let maxCacheLengthSeconds : Int := 30 * 60
          let shouldCacheVideo :=
            !info.isLiveContent && info.lengthSeconds < maxCacheLengthSeconds &&
              !jsTruthyNum options.seek && !jsTruthyNum options.toBound
          .ok ⟨fmt.url,
            if jsTruthyNum options.seek then options.seek else none,
            if jsTruthyNum options.toBound then options.toBound else none,
            true, shouldCacheVideo⟩

/-- Mutable state of the engine class: one field per instance field of
the source class.  `voiceConnection` keeps only whether a session is
bound, `playPositionInterval` whether the elapsed-seconds tick source is
active, and `disconnectTimer` the pending delay in seconds, if any. -/
structure PlayerState where
  voiceConnection : Bool
  status : STATUS
  loopCurrentSong : Bool
  queue : List QueuedSong
  queuePosition : Int
  audioPlayer : Option AudioPlayerH
  nowPlaying : Option QueuedSong
  playPositionInterval : Bool
  lastSongURL : String
  positionInSeconds : Int
  disconnectTimer : Option Int
deriving DecidableEq, Repr

/-- State of a freshly constructed engine, from the field initialisers
of the class. -/
def initialState : PlayerState :=
  { voiceConnection := false
    status := .PAUSED
    loopCurrentSong := false
    queue := []
    queuePosition := 0
    audioPlayer := none
    nowPlaying := none
    playPositionInterval := false
    lastSongURL := ""
    positionInSeconds := 0
    disconnectTimer := none }

/-- Translation of `getCurrent`: `queue[queuePosition]`, where a
negative or out-of-range index yields `undefined`. -/
def getCurrent (s : PlayerState) : Option QueuedSong :=
  if 0 ≤ s.queuePosition then s.queue[s.queuePosition.toNat]? else none

/-- Translation of `canGoForward`. -/
def canGoForward (skip : Int) (s : PlayerState) : Prop :=
  s.queuePosition + skip - 1 < (s.queue.length : Int)

instance (skip : Int) (s : PlayerState) : Decidable (canGoForward skip s) := by
  unfold canGoForward; infer_instance

/-- Translation of `canGoBack`. -/
def canGoBack (s : PlayerState) : Prop :=
  s.queuePosition - 1 ≥ 0

instance (s : PlayerState) : Decidable (canGoBack s) := by
  unfold canGoBack; infer_instance

/-- Translation of `manualForward`: advance the cursor by `skip`, reset
the elapsed counter and stop the tick source, or throw. -/
def manualForward (skip : Int) (s : PlayerState) : Except PlayerError PlayerState :=
  if canGoForward skip s then
    .ok { s with
      queuePosition := s.queuePosition + skip
      positionInSeconds := 0
      playPositionInterval := false }
  else
    .error .noMoreTracks

/-- Translation of `pause`: only Playing may pause. -/
def pauseOp (s : PlayerState) : PlayerState × Except PlayerError Unit :=
  if s.status ≠ .PLAYING then
    (s, .error .notPlaying)
  else
    ({ s with
        status := .PAUSED
        audioPlayer := s.audioPlayer.map (fun h => { h with paused := true })
        playPositionInterval := false }, .ok ())

/-- Translation of `disconnect`: pause if playing, drop loop mode, tear
down the connection and the audio player; a no-op when already
disconnected. -/
def disconnectOp (s : PlayerState) : PlayerState :=
  if s.voiceConnection then
    let s1 := if s.status = .PLAYING then (pauseOp s).1 else s
    { s1 with
        loopCurrentSong := false
        voiceConnection := false
        audioPlayer := none }
  else
    s

/-- Translation of the timer callback armed by `forward`: on expiry the
session is torn down only when the engine is still idle. -/
def onDisconnectTimerFire (s : PlayerState) : PlayerState :=
  if s.status = .IDLE then disconnectOp s else s

/-- Translation of `connect`: bind a voice session. -/
def connectOp (s : PlayerState) : PlayerState :=
  { s with voiceConnection := true }

/-- Translation of `stop`: disconnect and reset the queue. -/
def stopOp (s : PlayerState) : PlayerState :=
  { disconnectOp s with queuePosition := 0, queue := [] }

/-- Translation of `getQueue`: the sub-sequence strictly after the
cursor. -/
def getQueueView (s : PlayerState) : List QueuedSong :=
  jsSliceFrom s.queue (s.queuePosition + 1)

/-- Translation of `queueSize`. -/
def queueSize (s : PlayerState) : Nat :=
  (getQueueView s).length

/-- Translation of `add`: a playlist song or a non-immediate add is
pushed at the tail; otherwise the song is spliced in right after the
cursor. -/
def addOp (song : QueuedSong) (immediate : Bool) (s : PlayerState) : PlayerState :=
  if song.playlist.isSome || !immediate then
    { s with queue := s.queue ++ [song] }
  else
    let insertAt := s.queuePosition + 1
    { s with queue :=
        jsSliceTo s.queue insertAt ++ [song] ++ jsSliceFrom s.queue insertAt }

/-- Translation of `shuffle`: permute only the part strictly after the
cursor, using the collaborator randomness. -/
def shuffleOp (env : Env) (s : PlayerState) : PlayerState :=
  { s with queue :=
      jsSliceTo s.queue (s.queuePosition + 1) ++
        env.shuffleFn (jsSliceFrom s.queue (s.queuePosition + 1)) }

/-- Translation of `clear`: keep only the current song, cursor to 0. -/
def clearOp (s : PlayerState) : PlayerState :=
  { s with
      queuePosition := 0
      queue := match getCurrent s with
        | some c => [c]
        | none => [] }

/-- Translation of `removeFromQueue`: `splice(queuePosition + index, amount)`. -/
def removeFromQueueOp (index amount : Int) (s : PlayerState) : PlayerState :=
  { s with queue := (jsSpliceRemove s.queue (s.queuePosition + index) amount).2 }

/-- Translation of `removeCurrent`: drop the entry at the cursor without
moving the cursor. -/
def removeCurrentOp (s : PlayerState) : PlayerState :=
  { s with queue :=
      jsSliceTo s.queue s.queuePosition ++
        jsSliceFrom s.queue (s.queuePosition + 1) }

/-- Translation of `move`: bounds check against the upcoming length,
then remove one entry at `queuePosition + from` and re-insert it at
`queuePosition + to`.  In the degenerate corner where the removal start
is clamped to the array end, JS would re-insert `undefined`; the model
inserts nothing there, which no claim exercises. -/
def moveOp (fromIdx toIdx : Int) (s : PlayerState) :
    PlayerState × Except PlayerError Unit :=
  if fromIdx > (queueSize s : Int) ∨ toIdx > (queueSize s : Int) then
    (s, .error .moveIndexOutOfRange)
  else
    let r := jsSpliceRemove s.queue (s.queuePosition + fromIdx) 1
    let q2 := jsSliceTo r.2 (s.queuePosition + toIdx) ++ r.1 ++
      jsSliceFrom r.2 (s.queuePosition + toIdx)
    ({ s with queue := q2 }, .ok ())

/-- Translation of `seek`.  The source unconditionally sets the status
to Paused first, then validates the connection, the current song and
the range, then rebuilds the stream and the audio player.  The offset
guard `currentSong.offset !== undefined` is always true under the
typings, so the offset mapping is applied unconditionally. -/
def seekOp (env : Env) (positionSeconds : Int) (s : PlayerState) :
    PlayerState × Except PlayerError Unit :=
  let s0 := { s with status := .PAUSED }
  if s0.voiceConnection = false then
    (s0, .error .notConnected)
  else
    match getCurrent s0 with
    | none => (s0, .error .noSongPlaying)
    | some currentSong =>
      if positionSeconds > currentSong.length then
        (s0, .error .seekOutOfRange)
      else
        let realPositionSeconds := positionSeconds + currentSong.offset
        let toB := currentSong.length + currentSong.offset
        match getStreamModel env currentSong
            { seek := some realPositionSeconds, toBound := some toB } with
        | .error e => (s0, .error e)
        | .ok _ =>
          ({ s0 with
              audioPlayer := some ⟨false, false⟩
              positionInSeconds := positionSeconds
              playPositionInterval := true
              status := .PLAYING }, .ok ())

/-- Branch condition of `forward`: a current track exists and the
engine is not paused. -/
def shouldAutoPlay (s : PlayerState) : Bool :=
  (getCurrent s).isSome && !(s.status == .PAUSED)

/-- Catch handler of `forward`: on any error from the body the cursor
is decremented by one and the error is re-thrown. -/
def applyForwardCatch (r : PlayerState × Except PlayerError Unit) :
    PlayerState × Except PlayerError Unit :=
  match r with
  | (s, .ok u) => (s, .ok u)
  | (s, .error e) => ({ s with queuePosition := s.queuePosition - 1 }, .error e)

/-- Idle branch of `forward`, taken when there is no current track or
the engine is paused: stop the audio player, set status Idle, look up
the guild settings (throwing when absent) and arm the disconnect timer
unless the configured wait is zero. -/
def idleStep (env : Env) (s1 : PlayerState) :
    PlayerState × Except PlayerError Unit :=
  let s2 := { s1 with
      audioPlayer := s1.audioPlayer.map (fun h => { h with stopped := true })
      status := .IDLE }
  match env.settings with
  | none => (s2, .error .settingsNotFound)
  | some st =>
    if st.secondsToWaitAfterQueueEmpties ≠ 0 then
      ({ s2 with disconnectTimer := some st.secondsToWaitAfterQueueEmpties },
        .ok ())
    else
      (s2, .ok ())

/-- State mutations of the success path of `play`: fresh audio player,
status Playing, remember the song, and restart the elapsed counter,
resetting it only when the track URL changed since the last play. -/
def playSuccess (sA : PlayerState) (currentSong : QueuedSong) : PlayerState :=
  let sB := { sA with
      audioPlayer := some ⟨false, false⟩
      status := .PLAYING
      nowPlaying := some currentSong }
  if currentSong.url = sA.lastSongURL then
    { sB with playPositionInterval := true }
  else
    { sB with
        playPositionInterval := true
        positionInSeconds := 0
        lastSongURL := currentSong.url }

/-- Helper giving the parts of a successful `manualForward`. -/
theorem manualForward_ok_parts {skip : Int} {s s1 : PlayerState}
    (h : manualForward skip s = .ok s1) :
    s.queuePosition + skip - 1 < (s.queue.length : Int) ∧
      s1 = { s with
        queuePosition := s.queuePosition + skip
        positionInSeconds := 0
        playPositionInterval := false } := by
  unfold manualForward at h
  split at h
  · injection h with h'
    subst h'
    rename_i hc
    unfold canGoForward at hc
    exact ⟨hc, rfl⟩
  · cases h

/-- Translation of `play`.  After the connection and queue checks and
the cancellation of a pending idle disconnection, the paused-resume
paths may return early; otherwise the try block fetches a stream and on
failure runs `forward(1)` inline (its own failure replaces the original
error), then swallows the error only when it carries status code 410
and the song has a truthy origin channel id. -/
def playGo (env : Env) (s : PlayerState) : PlayerState × Except PlayerError Unit :=
  if s.voiceConnection = false then
    (s, .error .notConnected)
  else
    match getCurrent s with
    | none => (s, .error .queueEmpty)
    | some currentSong =>
      let sA := { s with disconnectTimer := none }
      let tryPart := fun (_ : Unit) =>
        match getStreamModel env currentSong
            { seek := some currentSong.offset
              toBound := some (currentSong.length + currentSong.offset) } with
        | .ok _ => (playSuccess sA currentSong, .ok ())
        | .error e =>
          match hfw : manualForward 1 sA with
          | .error e1 => (sA, .error e1)
          | .ok s1 =>
            match applyForwardCatch
                (if shouldAutoPlay s1 then playGo env s1 else idleStep env s1) with
            | (s2, .error e2) => (s2, .error e2)
            | (s2, .ok _) =>
              if e.statusCode? = some 410 ∧ jsTruthyStr currentSong.addedInChannelId then
                (s2, .ok ())
              else
                (s2, .error e)
      if sA.status = .PAUSED ∧ sA.nowPlaying.map (fun n => n.url) = some currentSong.url then
        match sA.audioPlayer with
        | some h =>
          ({ sA with
              audioPlayer := some { h with paused := false }
              status := .PLAYING
              playPositionInterval := true }, .ok ())
        | none =>
          if currentSong.isLive = false then
            seekOp env sA.positionInSeconds sA
          else
            tryPart ()
      else
        tryPart ()
termination_by ((s.queue.length : Int) + 1 - s.queuePosition).toNat
decreasing_by
  obtain ⟨h1, h2⟩ := manualForward_ok_parts hfw
  have h3 : s1.queuePosition = s.queuePosition + 1 := by rw [h2]
  have h4 : s1.queue.length = s.queue.length := by rw [h2]
  simp only at h1 h3 h4 ⊢
  omega

/-- Translation of `forward`: `manualForward`, then either autoplay the
new current track or run the idle branch, rolling the cursor back by
one on any error from that body. -/
def forwardCore (env : Env) (skip : Int) (s : PlayerState) :
    PlayerState × Except PlayerError Unit :=
  match manualForward skip s with
  | .error e => (s, .error e)
  | .ok s1 =>
    applyForwardCatch (if shouldAutoPlay s1 then playGo env s1 else idleStep env s1)

/-- Translation of `back`: step the cursor back, then play unless
paused; no catch handler guards this body. -/
def backOp (env : Env) (s : PlayerState) : PlayerState × Except PlayerError Unit :=
  if canGoBack s then
    let s1 := { s with
        queuePosition := s.queuePosition - 1
        positionInSeconds := 0
        playPositionInterval := false }
    if s1.status ≠ .PAUSED then
      playGo env s1
    else
      (s1, .ok ())
  else
    (s, .error .noPreviousTrack)

/-- Queue-cursor invariant stated by the specification. -/
def queueInvariant (s : PlayerState) : Prop :=
  0 ≤ s.queuePosition ∧ s.queuePosition ≤ (s.queue.length : Int)

instance (s : PlayerState) : Decidable (queueInvariant s) := by
  unfold queueInvariant; infer_instance

/-- Concrete track used by the witnesses and counterexamples. -/
def songA : QueuedSong :=
  ⟨"A", "artA", "urlA", 100, 0, none, false, none, .Youtube, "chan1", "userA"⟩

/-- Second concrete track, distinct from `songA`. -/
def songB : QueuedSong :=
  { songA with title := "B", url := "urlB" }

/-- Environment with no settings row and a resolver that fails with an
upstream 410 (resource permanently gone). -/
def envGone410NoSettings : Env :=
  ⟨none, fun _ => none, fun _ => .error (.fetch 410), id⟩

/-- Environment with a zero disconnect wait and a resolver that fails
with an upstream 410. -/
def envGone410Wait0 : Env :=
  ⟨some ⟨0⟩, fun _ => none, fun _ => .error (.fetch 410), id⟩

/-- Environment with a 30 second disconnect wait and a resolver that
fails with an upstream 500. -/
def envWait30 : Env :=
  ⟨some ⟨30⟩, fun _ => none, fun _ => .error (.fetch 500), id⟩

/-- Connected engine holding the single track `songA`, otherwise fresh. -/
def stateOneSong : PlayerState :=
  { initialState with voiceConnection := true, queue := [songA] }

/-- Fresh engine holding the two tracks `songA`, `songB`. -/
def stateTwoSongs : PlayerState :=
  { initialState with queue := [songA, songB] }

/-- C1 counterexample.  The claim says a failed `seek(p)` with
`p > currentTrack.length` mutates nothing; on a connected engine that is
Playing with current track `songA` of length 100, `seek 101` raises
`SeekOutOfRange` but flips the status to Paused, because the source sets
`this.status = STATUS.PAUSED` before any validation. -/
theorem c1_counterexample :
    (seekOp envGone410NoSettings 101
        { stateOneSong with status := .PLAYING }).2 = .error .seekOutOfRange ∧
      (seekOp envGone410NoSettings 101
        { stateOneSong with status := .PLAYING }).1.status = .PAUSED ∧
      ({ stateOneSong with status := .PLAYING } : PlayerState).status = .PLAYING := by
  refine ⟨?_, ?_, rfl⟩ <;> decide

/-- C1 amended.  On a connected engine with a current track, `seek p`
with `p` beyond the track length raises `SeekOutOfRange` having changed
exactly one thing: the status is forced to Paused.  Position, cursor,
queue and audio player are untouched. -/
theorem c1_amended (env : Env) (p : Int) (s : PlayerState)
    (currentSong : QueuedSong)
    (hconn : s.voiceConnection = true)
    (hcur : getCurrent s = some currentSong)
    (hp : p > currentSong.length) :
    seekOp env p s = ({ s with status := .PAUSED }, .error .seekOutOfRange) := by
  unfold seekOp
  rw [hconn]
  simp only [Bool.true_eq_false, if_false]
  have hcur1 : getCurrent { s with voiceConnection := true, status := .PAUSED } =
      some currentSong := hcur
  split
  next heq =>
    rw [hcur1] at heq
    cases heq
  next c heq =>
    rw [hcur1] at heq
    injection heq with h2
    subst h2
    rw [if_pos hp]

/-- C1 witness. -/
theorem c1_amended_witness :
    seekOp envGone410NoSettings 101 { stateOneSong with status := .PLAYING } =
      ({ stateOneSong with status := .PAUSED }, .error .seekOutOfRange) := by
  have h := c1_amended envGone410NoSettings 101
    { stateOneSong with status := .PLAYING } songA rfl (by decide) (by decide)
  exact h

/-- Third concrete track. -/
def songC : QueuedSong :=
  { songA with title := "C", url := "urlC" }

/-- Slices with a nonnegative index reduce to plain take. -/
theorem jsSliceTo_nonneg (l : List α) {i : Int} (h : 0 ≤ i) :
    jsSliceTo l i = l.take i.toNat := by
  unfold jsSliceTo jsClamp
  rw [if_neg (by omega)]
  rcases le_or_lt i.toNat l.length with hle | hlt
  · rw [min_eq_left hle]
  · rw [min_eq_right (le_of_lt hlt), List.take_length,
      List.take_of_length_le (le_of_lt hlt)]

/-- Slices with a nonnegative index reduce to plain drop. -/
theorem jsSliceFrom_nonneg (l : List α) {i : Int} (h : 0 ≤ i) :
    jsSliceFrom l i = l.drop i.toNat := by
  unfold jsSliceFrom jsClamp
  rw [if_neg (by omega)]
  rcases le_or_lt i.toNat l.length with hle | hlt
  · rw [min_eq_left hle]
  · rw [min_eq_right (le_of_lt hlt), List.drop_length,
      List.drop_eq_nil_of_le (le_of_lt hlt)]

/-- A splice removal with a nonnegative start keeps exactly the elements
outside the interval of removed indices. -/
theorem jsSpliceRemove_snd_nonneg (l : List α) {start amount : Int}
    (h : 0 ≤ start) :
    (jsSpliceRemove l start amount).2 =
      l.take start.toNat ++ l.drop (start.toNat + amount.toNat) := by
  unfold jsSpliceRemove jsClamp
  rw [if_neg (by omega)]
  simp only []
  rcases le_or_lt start.toNat l.length with hA | hA
  · rw [min_eq_left hA]
    rcases le_or_lt amount.toNat (l.length - start.toNat) with hB | hB
    · rw [min_eq_left hB]
    · rw [min_eq_right (le_of_lt hB),
        List.drop_eq_nil_of_le (by omega), List.drop_eq_nil_of_le (by omega)]
  · rw [min_eq_right (le_of_lt hA), List.take_length,
      List.take_of_length_le (by omega),
      List.drop_eq_nil_of_le (by omega), List.drop_eq_nil_of_le (by omega)]

/-- C5 confirmed.  `forward(skip)` with `cursor + skip - 1 ≥ len(queue)`
raises `NoMoreTracks` with the whole state unchanged, and `back()` at
cursor 0 raises `NoPreviousTrack` with the whole state unchanged:
`manualForward` throws before any mutation and `back` checks
`canGoBack` first. -/
theorem c5_thm (env : Env) (s : PlayerState) (skip : Int) :
    (s.queuePosition + skip - 1 ≥ (s.queue.length : Int) →
      forwardCore env skip s = (s, .error .noMoreTracks)) ∧
    (s.queuePosition = 0 → backOp env s = (s, .error .noPreviousTrack)) := by
  constructor
  · intro hover
    unfold forwardCore manualForward
    rw [if_neg (by unfold canGoForward; omega)]
  · intro h0
    unfold backOp
    rw [if_neg (by unfold canGoBack; omega)]

/-- C5 witness. -/
theorem c5_thm_witness :
    forwardCore envWait30 1 initialState = (initialState, .error .noMoreTracks) ∧
      backOp envWait30 initialState = (initialState, .error .noPreviousTrack) := by
  have h := c5_thm envWait30 initialState 1
  exact ⟨h.1 (by decide), h.2 rfl⟩

/-- C6 counterexample.  The claim says `removeAt(offsetFromNext, count)`
removes `count` tracks starting at queue index
`cursor + 1 + offsetFromNext`.  On a queue `[songA, songB]` with cursor
0, `removeFromQueue(0, 1)` would then remove `songB` and leave
`[songA]`; the source splices at `cursor + index` and removes the
current track instead, leaving `[songB]`. -/
theorem c6_counterexample :
    (removeFromQueueOp 0 1 stateTwoSongs).queue = [songB] ∧ songB ≠ songA := by
  exact ⟨by decide, by decide⟩

/-- C6 amended.  `removeFromQueue(index, count)` removes the tracks with
queue indices in `[cursor + index, cursor + index + count)`, leaving the
cursor and every other track unchanged; the first upcoming track
corresponds to `index = 1`, so the claimed start `cursor + 1 +
offsetFromNext` holds exactly when `index = offsetFromNext + 1`. -/
theorem c6_amended (s : PlayerState) (index amount : Int)
    (hpos : 0 ≤ s.queuePosition) (hidx : 0 ≤ index) :
    removeFromQueueOp index amount s =
      { s with queue :=
          s.queue.take (s.queuePosition + index).toNat ++
            s.queue.drop ((s.queuePosition + index).toNat + amount.toNat) } := by
  unfold removeFromQueueOp
  rw [jsSpliceRemove_snd_nonneg s.queue (by omega)]

/-- C6 witness. -/
theorem c6_amended_witness :
    removeFromQueueOp 1 1 stateTwoSongs = { stateTwoSongs with queue := [songA] } := by
  have h := c6_amended stateTwoSongs 1 1 (by decide) (by decide)
  rw [h]
  decide

/-- C7 confirmed.  `add(t, immediate := true)` on a track with no
playlist splices the track in directly after the cursor, preserving the
relative order of all other tracks; `add` with `immediate := false`, or
on a playlist track, appends at the tail. -/
theorem c7_thm (s : PlayerState) (t : QueuedSong) (imm : Bool)
    (hpos : 0 ≤ s.queuePosition) :
    (t.playlist = none → imm = true →
      addOp t imm s =
        { s with queue := s.queue.take (s.queuePosition.toNat + 1) ++ [t] ++
            s.queue.drop (s.queuePosition.toNat + 1) }) ∧
    ((t.playlist ≠ none ∨ imm = false) →
      addOp t imm s = { s with queue := s.queue ++ [t] }) := by
  constructor
  · intro hpl himm
    subst himm
    unfold addOp
    rw [if_neg (by simp [hpl])]
    show ({ s with queue := jsSliceTo s.queue (s.queuePosition + 1) ++ [t] ++
              jsSliceFrom s.queue (s.queuePosition + 1) } : PlayerState) = _
    rw [jsSliceTo_nonneg s.queue (by omega), jsSliceFrom_nonneg s.queue (by omega)]
    have h1 : (s.queuePosition + 1).toNat = s.queuePosition.toNat + 1 := by omega
    rw [h1]
  · intro hcase
    have hc : (t.playlist.isSome || !imm) = true := by
      rcases hcase with h | h
      · simp [Option.isSome_iff_ne_none, h]
      · simp [h]
    unfold addOp
    rw [if_pos hc]

/-- C7 witness. -/
theorem c7_thm_witness :
    addOp songC true stateTwoSongs =
        { stateTwoSongs with queue := [songA, songC, songB] } ∧
      addOp songC false stateTwoSongs =
        { stateTwoSongs with queue := [songA, songB, songC] } := by
  constructor
  · have h := (c7_thm stateTwoSongs songC true (by decide)).1 rfl rfl
    rw [h]
    decide
  · have h := (c7_thm stateTwoSongs songC false (by decide)).2 (Or.inr rfl)
    rw [h]
    decide

/-- Evaluation of `forward` up to the idle branch, when the branch
condition fails: the result is the catch-wrapped idle step. -/
theorem forwardCore_idle0 (env : Env) (skip : Int) (s s1 : PlayerState)
    (hmf : manualForward skip s = .ok s1)
    (hsap : shouldAutoPlay s1 = false) :
    forwardCore env skip s = applyForwardCatch (idleStep env s1) := by
  unfold forwardCore
  simp only [hmf]
  rw [hsap]
  simp only [Bool.false_eq_true, if_false]

/-- Idle branch of `forward` with no settings row: the status still
becomes Idle and the player is stopped, but the lookup failure is
re-thrown after the catch handler rolls the cursor back by one. -/
theorem forwardCore_idle_none (env : Env) (skip : Int) (s s1 : PlayerState)
    (hmf : manualForward skip s = .ok s1)
    (hsap : shouldAutoPlay s1 = false)
    (hset : env.settings = none) :
    forwardCore env skip s =
      ({ s1 with
          audioPlayer := s1.audioPlayer.map (fun h => { h with stopped := true })
          status := .IDLE
          queuePosition := s1.queuePosition - 1 }, .error .settingsNotFound) := by
  rw [forwardCore_idle0 env skip s s1 hmf hsap]
  unfold idleStep applyForwardCatch
  simp only [hset]

/-- Idle branch of `forward` with a settings row present: the status
becomes Idle, the player is stopped, and the disconnect timer is armed
exactly when the configured wait is nonzero. -/
theorem forwardCore_idle_some (env : Env) (skip : Int) (s s1 : PlayerState)
    (st : GuildSettings)
    (hmf : manualForward skip s = .ok s1)
    (hsap : shouldAutoPlay s1 = false)
    (hset : env.settings = some st) :
    forwardCore env skip s =
      (if st.secondsToWaitAfterQueueEmpties ≠ 0 then
        ({ s1 with
            audioPlayer := s1.audioPlayer.map (fun h => { h with stopped := true })
            status := .IDLE
            disconnectTimer := some st.secondsToWaitAfterQueueEmpties }, .ok ())
      else
        ({ s1 with
            audioPlayer := s1.audioPlayer.map (fun h => { h with stopped := true })
            status := .IDLE }, .ok ())) := by
  rw [forwardCore_idle0 env skip s s1 hmf hsap]
  unfold idleStep applyForwardCatch
  simp only [hset]
  by_cases hw : st.secondsToWaitAfterQueueEmpties = 0
  · rw [if_neg (show ¬st.secondsToWaitAfterQueueEmpties ≠ 0 from by omega)]
  · rw [if_pos hw]

/-- C9 confirmed.  When `forward` advances to a position with no current
track: the audio sink is stopped and the status becomes Idle; with
settings present, a nonzero wait arms the disconnect timer for exactly
that many seconds and the call succeeds, while a zero wait leaves the
timer untouched; and the armed timer callback tears the session down at
fire time only when the status is still Idle. -/
theorem c9_thm (env : Env) (s s1 : PlayerState) (skip : Int)
    (st : GuildSettings)
    (hset : env.settings = some st)
    (hmf : manualForward skip s = .ok s1)
    (hcur : getCurrent s1 = none) :
    (forwardCore env skip s).1.status = .IDLE ∧
    (∀ h ∈ (forwardCore env skip s).1.audioPlayer, h.stopped = true) ∧
    (st.secondsToWaitAfterQueueEmpties ≠ 0 →
      (forwardCore env skip s).1.disconnectTimer =
          some st.secondsToWaitAfterQueueEmpties ∧
        (forwardCore env skip s).2 = .ok ()) ∧
    (st.secondsToWaitAfterQueueEmpties = 0 →
      (forwardCore env skip s).1.disconnectTimer = s.disconnectTimer ∧
        (forwardCore env skip s).2 = .ok ()) ∧
    (∀ u : PlayerState, u.status ≠ .IDLE → onDisconnectTimerFire u = u) ∧
    (∀ u : PlayerState, u.status = .IDLE →
      onDisconnectTimerFire u = disconnectOp u) := by
  have hfire1 : ∀ u : PlayerState, u.status ≠ .IDLE → onDisconnectTimerFire u = u := by
    intro u hu
    unfold onDisconnectTimerFire
    rw [if_neg hu]
  have hfire2 : ∀ u : PlayerState, u.status = .IDLE →
      onDisconnectTimerFire u = disconnectOp u := by
    intro u hu
    unfold onDisconnectTimerFire
    rw [if_pos hu]
  have hstop : ∀ h ∈ s1.audioPlayer.map (fun x => { x with stopped := true }),
      h.stopped = true := by
    intro h hmem
    obtain ⟨a, ha, hfa⟩ := Option.map_eq_some'.mp hmem
    rw [← hfa]
  have hsap : shouldAutoPlay s1 = false := by
    unfold shouldAutoPlay
    rw [hcur]
    rfl
  obtain ⟨h1, h2⟩ := manualForward_ok_parts hmf
  have htimer : s1.disconnectTimer = s.disconnectTimer := by rw [h2]
  have hfc := forwardCore_idle_some env skip s s1 st hmf hsap hset
  rw [hfc]
  by_cases hw : st.secondsToWaitAfterQueueEmpties = 0
  · rw [if_neg (by omega)]
    refine ⟨rfl, hstop, ?_, ?_, hfire1, hfire2⟩
    · intro hne
      exact (hne hw).elim
    · intro _
      exact ⟨htimer, rfl⟩
  · rw [if_pos hw]
    refine ⟨rfl, hstop, ?_, ?_, hfire1, hfire2⟩
    · intro _
      exact ⟨rfl, rfl⟩
    · intro h0
      exact (hw h0).elim

/-- C9 witness. -/
theorem c9_thm_witness :
    (forwardCore envWait30 1 stateOneSong).1.status = .IDLE ∧
      (forwardCore envWait30 1 stateOneSong).1.disconnectTimer = some 30 := by
  have h := c9_thm envWait30 stateOneSong
    { stateOneSong with
        queuePosition := 1
        positionInSeconds := 0
        playPositionInterval := false }
    1 ⟨30⟩ rfl (by decide) (by decide)
  exact ⟨h.1, (h.2.2.1 (by decide)).1⟩

/-- C10 counterexample.  The claim says the Idle-state idle-disconnect
path cannot be entered until a `forward()` has exhausted the queue.  On
a fresh (paused) engine holding `[songA, songB]`, a single `forward(1)`
enters the idle branch and arms the disconnect timer even though
`songB` is the current track and the queue is not exhausted. -/
theorem c10_counterexample :
    (forwardCore envWait30 1 stateTwoSongs).1.status = .IDLE ∧
      (forwardCore envWait30 1 stateTwoSongs).1.disconnectTimer = some 30 ∧
      getCurrent (forwardCore envWait30 1 stateTwoSongs).1 = some songB := by
  refine ⟨?_, ?_, ?_⟩ <;> decide

/-- C10 amended.  A newly constructed engine starts Paused, so `pause()`
on it raises `NotPlaying`; and on a paused engine the idle-disconnect
branch of `forward` is entered exactly when the cursor can advance,
whether or not the queue is exhausted. -/
theorem c10_amended :
    initialState.status = .PAUSED ∧
    pauseOp initialState = (initialState, .error .notPlaying) ∧
    ∀ (env : Env) (s : PlayerState) (skip : Int), s.status = .PAUSED →
      ((forwardCore env skip s).1.status = .IDLE ↔ canGoForward skip s) := by
  refine ⟨rfl, by decide, ?_⟩
  intro env s skip hp
  constructor
  · intro hidle
    by_contra hng
    have hmf : manualForward skip s = .error .noMoreTracks := by
      unfold manualForward
      rw [if_neg hng]
    unfold forwardCore at hidle
    rw [hmf] at hidle
    have hs : s.status = STATUS.IDLE := hidle
    rw [hp] at hs
    cases hs
  · intro hcan
    have hmf : manualForward skip s = .ok { s with
        queuePosition := s.queuePosition + skip
        positionInSeconds := 0
        playPositionInterval := false } := by
      unfold manualForward
      rw [if_pos hcan]
    have hsap : shouldAutoPlay { s with
        queuePosition := s.queuePosition + skip
        positionInSeconds := 0
        playPositionInterval := false } = false := by
      unfold shouldAutoPlay
      have hs : ({ s with
          queuePosition := s.queuePosition + skip
          positionInSeconds := 0
          playPositionInterval := false } : PlayerState).status = .PAUSED := hp
      rw [hs]
      simp
    cases hset : env.settings with
    | none =>
      rw [forwardCore_idle_none env skip s _ hmf hsap hset]
    | some st =>
      rw [forwardCore_idle_some env skip s _ st hmf hsap hset]
      by_cases hw : st.secondsToWaitAfterQueueEmpties = 0
      · rw [if_neg (by omega)]
      · rw [if_pos hw]

/-- C10 witness. -/
theorem c10_amended_witness :
    (forwardCore envWait30 1 stateTwoSongs).1.status = .IDLE := by
  have h := c10_amended.2.2 envWait30 stateTwoSongs 1 rfl
  exact h.mpr (by decide)

/-- A state with a current track can always advance by one. -/
theorem canGoForward_one_of_getCurrent {s : PlayerState} {c : QueuedSong}
    (h : getCurrent s = some c) : canGoForward 1 s := by
  unfold getCurrent at h
  split at h
  · rename_i hpos
    have hlt := (List.getElem?_eq_some.mp h).1
    unfold canGoForward
    omega
  · cases h

/-- C4 counterexample.  The claim says a failure during `forward` rolls
the cursor back to exactly its prior value.  On a paused engine with
queue `[songA, songB]` and cursor 0, `forward(2)` advances to 2, hits
the idle branch, fails on missing settings, and the catch handler rolls
back by only one: the error surfaces with the cursor at 1, not 0. -/
theorem c4_counterexample :
    (forwardCore envGone410NoSettings 2 stateTwoSongs).2 = .error .settingsNotFound ∧
      (forwardCore envGone410NoSettings 2 stateTwoSongs).1.queuePosition = 1 ∧
      stateTwoSongs.queuePosition = 0 := by
  refine ⟨?_, ?_, rfl⟩ <;> decide

/-- C4 amended.  On an engine that is not set to auto-play the next
track (paused), a failing `forward(skip)` leaves the cursor unchanged
when the overflow check rejects it, and otherwise at `prior + skip - 1`:
the catch handler decrements by exactly one, so the prior value is
restored exactly only when `skip = 1`.  `back()` has no rollback
handler of its own. -/
theorem c4_amended (env : Env) (s : PlayerState) (skip : Int) (e : PlayerError)
    (hp : s.status = .PAUSED)
    (herr : (forwardCore env skip s).2 = .error e) :
    (forwardCore env skip s).1.queuePosition =
      if canGoForward skip s then s.queuePosition + skip - 1
      else s.queuePosition := by
  by_cases hcan : canGoForward skip s
  · rw [if_pos hcan]
    have hmf : manualForward skip s = .ok { s with
        queuePosition := s.queuePosition + skip
        positionInSeconds := 0
        playPositionInterval := false } := by
      unfold manualForward
      rw [if_pos hcan]
    have hsap : shouldAutoPlay { s with
        queuePosition := s.queuePosition + skip
        positionInSeconds := 0
        playPositionInterval := false } = false := by
      unfold shouldAutoPlay
      have hs : ({ s with
          queuePosition := s.queuePosition + skip
          positionInSeconds := 0
          playPositionInterval := false } : PlayerState).status = .PAUSED := hp
      rw [hs]
      simp
    cases hset : env.settings with
    | none =>
      rw [forwardCore_idle_none env skip s _ hmf hsap hset]
    | some st =>
      rw [forwardCore_idle_some env skip s _ st hmf hsap hset] at herr
      by_cases hw : st.secondsToWaitAfterQueueEmpties = 0
      · rw [if_neg (show ¬st.secondsToWaitAfterQueueEmpties ≠ 0 from by omega)] at herr
        have hcontra : (Except.ok () : Except PlayerError Unit) = .error e := herr
        cases hcontra
      · rw [if_pos hw] at herr
        have hcontra : (Except.ok () : Except PlayerError Unit) = .error e := herr
        cases hcontra
  · rw [if_neg hcan]
    have hmf : manualForward skip s = .error .noMoreTracks := by
      unfold manualForward
      rw [if_neg hcan]
    unfold forwardCore
    rw [hmf]

/-- C4 witness. -/
theorem c4_amended_witness :
    (forwardCore envGone410NoSettings 2 stateTwoSongs).1.queuePosition =
      if canGoForward 2 stateTwoSongs then stateTwoSongs.queuePosition + 2 - 1
      else stateTwoSongs.queuePosition := by
  exact c4_amended envGone410NoSettings stateTwoSongs 2 .settingsNotFound rfl (by decide)

/-- C2 counterexample.  The claim says a fetch failure carrying the 410
signal is swallowed during `play()` after the cursor auto-advances by
one.  On a connected engine whose only track fetches with a 410 and
whose guild has no settings row, the inline `forward(1)` itself throws
`SettingsNotFound`; that error replaces the 410 and propagates, and the
rollback inside `forward` cancels the advance, so the cursor nets 0. -/
theorem c2_counterexample :
    (playGo envGone410NoSettings stateOneSong).2 = .error .settingsNotFound ∧
      (playGo envGone410NoSettings stateOneSong).1.queuePosition = 0 ∧
      stateOneSong.queuePosition = 0 := by
  refine ⟨?_, ?_, rfl⟩ <;> (rw [playGo.eq_def]; decide)

/-- C2 amended.  For a stream-fetch failure during `play()` whose inline
auto-advance `forward(1)` completes without error: a failure carrying
status code 410 on a song with a truthy origin channel id is swallowed
and the call returns in the state `forward(1)` produced (cursor
advanced by one); any other failure is re-raised in that same state.
When `forward(1)` itself raises, its error propagates instead. -/
theorem c2_amended (env : Env) (s sf : PlayerState) (c : QueuedSong)
    (e : PlayerError)
    (hconn : s.voiceConnection = true)
    (hcur : getCurrent s = some c)
    (htimer : s.disconnectTimer = none)
    (hres : ¬(s.status = .PAUSED ∧ s.nowPlaying.map (fun n => n.url) = some c.url))
    (hstream : getStreamModel env c
      { seek := some c.offset, toBound := some (c.length + c.offset) } = .error e)
    (hfw : forwardCore env 1 s = (sf, .ok ())) :
    playGo env s = (sf,
      if e.statusCode? = some 410 ∧ jsTruthyStr c.addedInChannelId then .ok ()
      else .error e) := by
  have hsA : ({ s with voiceConnection := true, disconnectTimer := none } :
      PlayerState) = s := by
    cases s
    simp only at hconn htimer ⊢
    rw [hconn, htimer]
  rw [playGo.eq_def]
  rw [hconn]
  simp only [Bool.true_eq_false, if_false]
  split
  next heq =>
    rw [hcur] at heq
    cases heq
  next cs heq =>
    rw [hcur] at heq
    injection heq with hcs
    subst hcs
    rw [if_neg hres]
    rw [hsA]
    simp only [hstream]
    split
    next e1 heq2 =>
      have hcan := canGoForward_one_of_getCurrent hcur
      unfold manualForward at heq2
      rw [if_pos hcan] at heq2
      cases heq2
    next s1 heq2 =>
      unfold forwardCore at hfw
      simp only [heq2] at hfw
      rw [hfw]
      by_cases hcond : e.statusCode? = some 410 ∧ jsTruthyStr c.addedInChannelId
      · simp only [if_pos hcond]
      · simp only [if_neg hcond]

/-- C2 witness. -/
theorem c2_amended_witness :
    playGo envGone410Wait0 stateOneSong =
      ({ stateOneSong with status := .IDLE, queuePosition := 1 }, .ok ()) := by
  have h := c2_amended envGone410Wait0 stateOneSong
    { stateOneSong with status := .IDLE, queuePosition := 1 }
    songA (.fetch 410) rfl (by decide) rfl (by decide) (by decide) (by decide)
  rw [h]
  decide

/-- Concrete candidate with no exact-target match, not flagged live,
highest average bitrate, no peak-bitrate tag, itag outside the
preferred tiers. -/
def fmtNonLive : VideoFormat :=
  ⟨140, "u1", some "mp4a", some "mp4", some 44100, some 100, some 200, none, false⟩

/-- Concrete candidate flagged live, itag 128 (a preferred tier), lower
bitrates than `fmtNonLive`. -/
def fmtLiveTier : VideoFormat :=
  ⟨128, "u2", some "mp4a", some "mp4", some 44100, some 50, some 100, none, true⟩

/-- Resolver result for live content whose first candidate is not
flagged live. -/
def infoLiveMixed : VideoInfo := ⟨[fmtNonLive, fmtLiveTier], true, 600⟩

/-- C8 counterexample.  The claim routes selection into the live branch
when the content is live; the source instead tests `formats[0].isLive`.
For live content whose first candidate is not flagged live, the claimed
policy picks the preferred-tier candidate `fmtLiveTier` while the source
takes the average-bitrate branch and picks `fmtNonLive`. -/
theorem c8_counterexample :
    chooseFormat infoLiveMixed = .ok fmtNonLive ∧
      specFormatPolicyClaimed infoLiveMixed = .ok fmtLiveTier ∧
      fmtNonLive ≠ fmtLiveTier := by
  refine ⟨?_, ?_, ?_⟩ <;> decide

/-- C8 amended.  On a cache miss with a nonempty candidate list, format
selection follows the claimed step order with one change: the live
branch is taken when the first candidate carries the live flag (the
content-liveness flag is not consulted).  Exact target triple first;
else, live: descending bitrate, first preferred-tier tag; else,
descending known average bitrate, first entry without a peak-bitrate
tag, falling back to the highest; `NoSuitableFormat` when nothing
survives. -/
theorem c8_amended (info : VideoInfo) (hne : info.formats ≠ []) :
    chooseFormat info = specFormatPolicyAmended info := by
  unfold chooseFormat specFormatPolicyAmended specFormatPolicyWith
  cases hf : info.formats.find? isExactTarget with
  | some f => rfl
  | none =>
    unfold nextBestFormat
    cases hfs : info.formats with
    | nil => exact (hne hfs).elim
    | cons f0 rest =>
      simp only [Option.elim, List.head?]
      by_cases hlive : f0.isLive = true
      · rw [if_pos hlive, if_pos hlive]
        cases hfind : livePick (f0 :: rest) with
        | some f => rfl
        | none => rfl
      · rw [if_neg hlive, if_neg hlive]
        cases hpick : nonLivePick (f0 :: rest) with
        | some f => rfl
        | none => rfl

/-- C8 witness. -/
theorem c8_amended_witness :
    chooseFormat infoLiveMixed = specFormatPolicyAmended infoLiveMixed := by
  exact c8_amended infoLiveMixed (by decide)

/-- Cursor-related frame of an operation result: the queue is untouched,
the cursor never moves backwards, and it stays within the queue length
unless it did not move at all. -/
def cursorFrame (s : PlayerState) (res : PlayerState × Except PlayerError Unit) : Prop :=
  res.1.queue = s.queue ∧ s.queuePosition ≤ res.1.queuePosition ∧
    (res.1.queuePosition ≤ (s.queue.length : Int) ∨
      res.1.queuePosition = s.queuePosition)

/-- Queue and cursor are untouched by `seek`. -/
theorem seekOp_frame (env : Env) (p : Int) (s : PlayerState) :
    (seekOp env p s).1.queue = s.queue ∧
      (seekOp env p s).1.queuePosition = s.queuePosition := by
  simp only [seekOp]
  split
  · exact ⟨rfl, rfl⟩
  · split
    · exact ⟨rfl, rfl⟩
    · split
      · exact ⟨rfl, rfl⟩
      · split
        · exact ⟨rfl, rfl⟩
        · exact ⟨rfl, rfl⟩

/-- Queue and cursor are untouched by the success path of `play`. -/
theorem playSuccess_frame (sA : PlayerState) (c : QueuedSong) :
    (playSuccess sA c).queue = sA.queue ∧
      (playSuccess sA c).queuePosition = sA.queuePosition := by
  unfold playSuccess
  split
  · exact ⟨rfl, rfl⟩
  · exact ⟨rfl, rfl⟩

/-- The catch-wrapped idle branch keeps the queue and moves the cursor
by at most one step back. -/
theorem idleCatch_frame (env : Env) (s1 : PlayerState) :
    (applyForwardCatch (idleStep env s1)).1.queue = s1.queue ∧
      ((applyForwardCatch (idleStep env s1)).1.queuePosition = s1.queuePosition ∨
        (applyForwardCatch (idleStep env s1)).1.queuePosition =
          s1.queuePosition - 1) := by
  cases hset : env.settings with
  | none =>
    simp only [idleStep, hset]
    exact ⟨rfl, Or.inr rfl⟩
  | some st =>
    simp only [idleStep, hset]
    by_cases hw : st.secondsToWaitAfterQueueEmpties = 0
    · rw [if_neg (show ¬st.secondsToWaitAfterQueueEmpties ≠ 0 from by omega)]
      exact ⟨rfl, Or.inl rfl⟩
    · rw [if_pos hw]
      exact ⟨rfl, Or.inl rfl⟩

/-- The recursive body of `play` preserves the queue, never moves the
cursor backwards, and keeps it within the queue length unless it never
moved. -/
theorem playGo_frame (env : Env) : ∀ s : PlayerState,
    cursorFrame s (playGo env s) := by
  intro s0
  generalize hn : (((s0.queue.length : Int) + 1 - s0.queuePosition).toNat) = n
  induction n using Nat.strong_induction_on generalizing s0 with
  | h n ih =>
    unfold cursorFrame
    rw [playGo.eq_def]
    simp only [Bool.not_eq_true]
    split
    · exact ⟨rfl, le_refl _, Or.inr rfl⟩
    · split
      · exact ⟨rfl, le_refl _, Or.inr rfl⟩
      next currentSong hcur =>
        split
        · split
          · exact ⟨rfl, le_refl _, Or.inr rfl⟩
          · split
            · obtain ⟨hqs, hps⟩ := seekOp_frame env s0.positionInSeconds
                { s0 with disconnectTimer := none }
              exact ⟨hqs, le_of_eq hps.symm, Or.inr hps⟩
            · split
              · exact ⟨(playSuccess_frame { s0 with disconnectTimer := none } currentSong).1,
                  le_of_eq (playSuccess_frame { s0 with disconnectTimer := none }
                    currentSong).2.symm,
                  Or.inr (playSuccess_frame { s0 with disconnectTimer := none }
                    currentSong).2⟩
              next e hstr =>
                split
                · exact ⟨rfl, le_refl _, Or.inr rfl⟩
                next s1 hmf =>
                  obtain ⟨hlt, hs1⟩ := manualForward_ok_parts hmf
                  have hlt2 : s0.queuePosition + 1 - 1 < (s0.queue.length : Int) := hlt
                  have hq1 : s1.queue = s0.queue := by rw [hs1]
                  have hp1 : s1.queuePosition = s0.queuePosition + 1 := by rw [hs1]
                  have hlen1 : s1.queue.length = s0.queue.length := by rw [hq1]
                  by_cases hsap : shouldAutoPlay s1 = true
                  · rw [if_pos hsap]
                    have hmu : (((s1.queue.length : Int) + 1 -
                        s1.queuePosition).toNat) < n := by omega
                    have hih := ih _ hmu s1 rfl
                    unfold cursorFrame at hih
                    obtain ⟨hq2, hge2, hle2⟩ := hih
                    cases hpg : playGo env s1 with
                    | mk s2 r2 =>
                      rw [hpg] at hq2 hge2 hle2
                      simp only at hq2 hge2 hle2
                      cases r2 with
                      | ok u =>
                        have hfst : (if e.statusCode? = some 410 ∧
                            jsTruthyStr currentSong.addedInChannelId = true
                            then ((s2, Except.ok ()) : PlayerState × Except PlayerError Unit)
                            else (s2, Except.error e)).1 = s2 := by
                          split
                          · rfl
                          · rfl
                        exact ⟨(congrArg PlayerState.queue hfst).trans
                            (show s2.queue = s0.queue from by rw [hq2, hq1]),
                          le_of_le_of_eq (show s0.queuePosition ≤ s2.queuePosition
                              from by omega)
                            (congrArg PlayerState.queuePosition hfst).symm,
                          Or.inl (le_of_eq_of_le (congrArg PlayerState.queuePosition hfst)
                            (show s2.queuePosition ≤ (s0.queue.length : Int)
                              from by omega))⟩
                      | error e2 =>
                        exact ⟨show s2.queue = s0.queue from by rw [hq2, hq1],
                          show s0.queuePosition ≤ s2.queuePosition - 1 from by omega,
                          Or.inl (show s2.queuePosition - 1 ≤ (s0.queue.length : Int)
                            from by omega)⟩
                  · rw [if_neg hsap]
                    obtain ⟨hqi, hpi⟩ := idleCatch_frame env s1
                    cases hac : applyForwardCatch (idleStep env s1) with
                    | mk s2 r2 =>
                      rw [hac] at hqi hpi
                      simp only at hqi hpi
                      cases r2 with
                      | error e2 =>
                        exact ⟨show s2.queue = s0.queue from by rw [hqi, hq1],
                          show s0.queuePosition ≤ s2.queuePosition from by omega,
                          Or.inl (show s2.queuePosition ≤ (s0.queue.length : Int)
                            from by omega)⟩
                      | ok u =>
                        have hfst : (if e.statusCode? = some 410 ∧
                            jsTruthyStr currentSong.addedInChannelId = true
                            then ((s2, Except.ok ()) : PlayerState × Except PlayerError Unit)
                            else (s2, Except.error e)).1 = s2 := by
                          split
                          · rfl
                          · rfl
                        exact ⟨(congrArg PlayerState.queue hfst).trans
                            (show s2.queue = s0.queue from by rw [hqi, hq1]),
                          le_of_le_of_eq (show s0.queuePosition ≤ s2.queuePosition
                              from by omega)
                            (congrArg PlayerState.queuePosition hfst).symm,
                          Or.inl (le_of_eq_of_le (congrArg PlayerState.queuePosition hfst)
                            (show s2.queuePosition ≤ (s0.queue.length : Int)
                              from by omega))⟩
        · split
          · exact ⟨(playSuccess_frame { s0 with disconnectTimer := none } currentSong).1,
              le_of_eq (playSuccess_frame { s0 with disconnectTimer := none }
                currentSong).2.symm,
              Or.inr (playSuccess_frame { s0 with disconnectTimer := none }
                currentSong).2⟩
          next e hstr =>
            split
            · exact ⟨rfl, le_refl _, Or.inr rfl⟩
            next s1 hmf =>
              obtain ⟨hlt, hs1⟩ := manualForward_ok_parts hmf
              have hlt2 : s0.queuePosition + 1 - 1 < (s0.queue.length : Int) := hlt
              have hq1 : s1.queue = s0.queue := by rw [hs1]
              have hp1 : s1.queuePosition = s0.queuePosition + 1 := by rw [hs1]
              have hlen1 : s1.queue.length = s0.queue.length := by rw [hq1]
              by_cases hsap : shouldAutoPlay s1 = true
              · rw [if_pos hsap]
                have hmu : (((s1.queue.length : Int) + 1 -
                    s1.queuePosition).toNat) < n := by omega
                have hih := ih _ hmu s1 rfl
                unfold cursorFrame at hih
                obtain ⟨hq2, hge2, hle2⟩ := hih
                cases hpg : playGo env s1 with
                | mk s2 r2 =>
                  rw [hpg] at hq2 hge2 hle2
                  simp only at hq2 hge2 hle2
                  cases r2 with
                  | ok u =>
                    have hfst : (if e.statusCode? = some 410 ∧
                        jsTruthyStr currentSong.addedInChannelId = true
                        then ((s2, Except.ok ()) : PlayerState × Except PlayerError Unit)
                        else (s2, Except.error e)).1 = s2 := by
                      split
                      · rfl
                      · rfl
                    exact ⟨(congrArg PlayerState.queue hfst).trans
                        (show s2.queue = s0.queue from by rw [hq2, hq1]),
                      le_of_le_of_eq (show s0.queuePosition ≤ s2.queuePosition
                          from by omega)
                        (congrArg PlayerState.queuePosition hfst).symm,
                      Or.inl (le_of_eq_of_le (congrArg PlayerState.queuePosition hfst)
                        (show s2.queuePosition ≤ (s0.queue.length : Int)
                          from by omega))⟩
                  | error e2 =>
                    exact ⟨show s2.queue = s0.queue from by rw [hq2, hq1],
                      show s0.queuePosition ≤ s2.queuePosition - 1 from by omega,
                      Or.inl (show s2.queuePosition - 1 ≤ (s0.queue.length : Int)
                        from by omega)⟩
              · rw [if_neg hsap]
                obtain ⟨hqi, hpi⟩ := idleCatch_frame env s1
                cases hac : applyForwardCatch (idleStep env s1) with
                | mk s2 r2 =>
                  rw [hac] at hqi hpi
                  simp only at hqi hpi
                  cases r2 with
                  | error e2 =>
                    exact ⟨show s2.queue = s0.queue from by rw [hqi, hq1],
                      show s0.queuePosition ≤ s2.queuePosition from by omega,
                      Or.inl (show s2.queuePosition ≤ (s0.queue.length : Int)
                        from by omega)⟩
                  | ok u =>
                    have hfst : (if e.statusCode? = some 410 ∧
                        jsTruthyStr currentSong.addedInChannelId = true
                        then ((s2, Except.ok ()) : PlayerState × Except PlayerError Unit)
                        else (s2, Except.error e)).1 = s2 := by
                      split
                      · rfl
                      · rfl
                    exact ⟨(congrArg PlayerState.queue hfst).trans
                        (show s2.queue = s0.queue from by rw [hqi, hq1]),
                      le_of_le_of_eq (show s0.queuePosition ≤ s2.queuePosition
                          from by omega)
                        (congrArg PlayerState.queuePosition hfst).symm,
                      Or.inl (le_of_eq_of_le (congrArg PlayerState.queuePosition hfst)
                        (show s2.queuePosition ≤ (s0.queue.length : Int)
                          from by omega))⟩

/-- Clamped indices never exceed the length. -/
theorem jsClamp_le (len : Nat) (i : Int) : jsClamp len i ≤ len := by
  unfold jsClamp
  split <;> omega

/-- Length of a front slice. -/
theorem length_jsSliceTo (l : List α) (i : Int) :
    (jsSliceTo l i).length = jsClamp l.length i := by
  unfold jsSliceTo
  rw [List.length_take]
  exact min_eq_left (jsClamp_le _ _)

/-- Length of a tail slice. -/
theorem length_jsSliceFrom (l : List α) (i : Int) :
    (jsSliceFrom l i).length = l.length - jsClamp l.length i := by
  unfold jsSliceFrom
  rw [List.length_drop]

/-- A splice removal shortens the array by the clamped delete count. -/
theorem length_jsSpliceRemove_snd (l : List α) (start dc : Int) :
    (jsSpliceRemove l start dc).2.length =
      l.length - min dc.toNat (l.length - jsClamp l.length start) := by
  have h := jsClamp_le l.length start
  unfold jsSpliceRemove
  simp only [List.length_append, List.length_take, List.length_drop]
  omega

/-- The removed part and the remaining part of a splice partition the
length. -/
theorem length_jsSpliceRemove_parts (l : List α) (start dc : Int) :
    (jsSpliceRemove l start dc).1.length + (jsSpliceRemove l start dc).2.length =
      l.length := by
  have h := jsClamp_le l.length start
  unfold jsSpliceRemove
  simp only [List.length_append, List.length_take, List.length_drop]
  omega

/-- Queue and cursor are untouched by a (successful or failed) pause. -/
theorem pauseOp_frame (s : PlayerState) :
    (pauseOp s).1.queue = s.queue ∧
      (pauseOp s).1.queuePosition = s.queuePosition := by
  unfold pauseOp
  split
  · exact ⟨rfl, rfl⟩
  · exact ⟨rfl, rfl⟩

/-- Queue and cursor are untouched by disconnect. -/
theorem disconnectOp_frame (s : PlayerState) :
    (disconnectOp s).queue = s.queue ∧
      (disconnectOp s).queuePosition = s.queuePosition := by
  unfold disconnectOp
  split
  · split
    · exact ⟨(pauseOp_frame s).1, (pauseOp_frame s).2⟩
    · exact ⟨rfl, rfl⟩
  · exact ⟨rfl, rfl⟩

/-- Invariant preservation by the recursive play body. -/
theorem inv_playGo (env : Env) (s : PlayerState) (hs : queueInvariant s) :
    queueInvariant (playGo env s).1 := by
  have h := playGo_frame env s
  unfold cursorFrame at h
  obtain ⟨hq, hge, hle⟩ := h
  unfold queueInvariant at hs ⊢
  rw [hq]
  omega

/-- Invariant preservation by forward with a positive skip. -/
theorem inv_forwardCore (env : Env) (s : PlayerState) (skip : Int)
    (hs : queueInvariant s) (hskip : 1 ≤ skip) :
    queueInvariant (forwardCore env skip s).1 := by
  unfold forwardCore
  cases hmf : manualForward skip s with
  | error e => exact hs
  | ok s1 =>
    obtain ⟨hlt, hs1⟩ := manualForward_ok_parts hmf
    have hq1 : s1.queue = s.queue := by rw [hs1]
    have hp1 : s1.queuePosition = s.queuePosition + skip := by rw [hs1]
    have hlen1 : s1.queue.length = s.queue.length := by rw [hq1]
    obtain ⟨hs0, hsl⟩ := hs
    show queueInvariant (applyForwardCatch
      (if shouldAutoPlay s1 = true then playGo env s1 else idleStep env s1)).1
    by_cases hsap : shouldAutoPlay s1 = true
    · rw [if_pos hsap]
      have hfr := playGo_frame env s1
      unfold cursorFrame at hfr
      obtain ⟨hq2, hge2, hle2⟩ := hfr
      cases hpg : playGo env s1 with
      | mk s2 r2 =>
        rw [hpg] at hq2 hge2 hle2
        simp only at hq2 hge2 hle2
        have hlen2 : s2.queue.length = s.queue.length := by rw [hq2, hq1]
        cases r2 with
        | ok u =>
          exact ⟨show (0 : Int) ≤ s2.queuePosition from by omega,
            show s2.queuePosition ≤ (s2.queue.length : Int) from by omega⟩
        | error e2 =>
          refine ⟨show (0 : Int) ≤ s2.queuePosition - 1 from by omega, ?_⟩
          show s2.queuePosition - 1 ≤ (s2.queue.length : Int)
          omega
    · rw [if_neg hsap]
      obtain ⟨hqi, hpi⟩ := idleCatch_frame env s1
      have hleni : (applyForwardCatch (idleStep env s1)).1.queue.length =
          s.queue.length := by rw [hqi, hq1]
      constructor
      · omega
      · omega

/-- Invariant preservation by back. -/
theorem inv_backOp (env : Env) (s : PlayerState) (hs : queueInvariant s) :
    queueInvariant (backOp env s).1 := by
  obtain ⟨hs0, hsl⟩ := hs
  unfold backOp
  split
  · rename_i hcgb
    unfold canGoBack at hcgb
    show queueInvariant (if ({ s with
        queuePosition := s.queuePosition - 1
        positionInSeconds := 0
        playPositionInterval := false } : PlayerState).status ≠ STATUS.PAUSED then
        playGo env { s with
          queuePosition := s.queuePosition - 1
          positionInSeconds := 0
          playPositionInterval := false }
      else ({ s with
          queuePosition := s.queuePosition - 1
          positionInSeconds := 0
          playPositionInterval := false }, Except.ok ())).1
    split
    · exact inv_playGo env _
        ⟨show (0 : Int) ≤ s.queuePosition - 1 from by omega,
          show s.queuePosition - 1 ≤ (s.queue.length : Int) from by omega⟩
    · exact ⟨show (0 : Int) ≤ s.queuePosition - 1 from by omega,
        show s.queuePosition - 1 ≤ (s.queue.length : Int) from by omega⟩
  · exact ⟨hs0, hsl⟩

/-- Invariant preservation by seek. -/
theorem inv_seekOp (env : Env) (p : Int) (s : PlayerState)
    (hs : queueInvariant s) : queueInvariant (seekOp env p s).1 := by
  obtain ⟨hq, hp⟩ := seekOp_frame env p s
  unfold queueInvariant at hs ⊢
  rw [hq, hp]
  exact hs

/-- Invariant preservation by add. -/
theorem inv_addOp (t : QueuedSong) (imm : Bool) (s : PlayerState)
    (hs : queueInvariant s) : queueInvariant (addOp t imm s) := by
  obtain ⟨hs0, hsl⟩ := hs
  unfold addOp
  split
  · refine ⟨hs0, ?_⟩
    show s.queuePosition ≤ ((s.queue ++ [t]).length : Int)
    rw [List.length_append]
    simp only [List.length_cons, List.length_nil]
    omega
  · refine ⟨hs0, ?_⟩
    show s.queuePosition ≤
      ((jsSliceTo s.queue (s.queuePosition + 1) ++ [t] ++
        jsSliceFrom s.queue (s.queuePosition + 1)).length : Int)
    have hc := jsClamp_le s.queue.length (s.queuePosition + 1)
    simp only [List.length_append, length_jsSliceTo, length_jsSliceFrom,
      List.length_cons, List.length_nil]
    omega

/-- Invariant preservation by shuffle, for permutation-like randomness. -/
theorem inv_shuffleOp (env : Env) (s : PlayerState)
    (hshuf : ∀ l, (env.shuffleFn l).length = l.length)
    (hs : queueInvariant s) : queueInvariant (shuffleOp env s) := by
  obtain ⟨hs0, hsl⟩ := hs
  unfold shuffleOp
  refine ⟨hs0, ?_⟩
  show s.queuePosition ≤
    ((jsSliceTo s.queue (s.queuePosition + 1) ++
      env.shuffleFn (jsSliceFrom s.queue (s.queuePosition + 1))).length : Int)
  have hc := jsClamp_le s.queue.length (s.queuePosition + 1)
  simp only [List.length_append, length_jsSliceTo, hshuf, length_jsSliceFrom]
  omega

/-- Invariant preservation by clear. -/
theorem inv_clearOp (s : PlayerState) : queueInvariant (clearOp s) := by
  unfold clearOp
  refine ⟨le_refl 0, ?_⟩
  split <;> simp

/-- Invariant preservation by removeFromQueue with a nonnegative index. -/
theorem inv_removeFromQueueOp (index amount : Int) (s : PlayerState)
    (hs : queueInvariant s) (hidx : 0 ≤ index) :
    queueInvariant (removeFromQueueOp index amount s) := by
  obtain ⟨hs0, hsl⟩ := hs
  unfold removeFromQueueOp
  refine ⟨hs0, ?_⟩
  show s.queuePosition ≤
    (((jsSpliceRemove s.queue (s.queuePosition + index) amount).2.length : Nat) : Int)
  rw [length_jsSpliceRemove_snd]
  have hst : jsClamp s.queue.length (s.queuePosition + index) =
      min (s.queuePosition + index).toNat s.queue.length := by
    unfold jsClamp
    rw [if_neg (by omega)]
  rw [hst]
  omega

/-- Invariant preservation by removeCurrent. -/
theorem inv_removeCurrentOp (s : PlayerState) (hs : queueInvariant s) :
    queueInvariant (removeCurrentOp s) := by
  obtain ⟨hs0, hsl⟩ := hs
  unfold removeCurrentOp
  refine ⟨hs0, ?_⟩
  show s.queuePosition ≤
    ((jsSliceTo s.queue s.queuePosition ++
      jsSliceFrom s.queue (s.queuePosition + 1)).length : Int)
  have h1 : jsClamp s.queue.length s.queuePosition =
      min s.queuePosition.toNat s.queue.length := by
    unfold jsClamp
    rw [if_neg (by omega)]
  have h2 : jsClamp s.queue.length (s.queuePosition + 1) =
      min (s.queuePosition + 1).toNat s.queue.length := by
    unfold jsClamp
    rw [if_neg (by omega)]
  simp only [List.length_append, length_jsSliceTo, length_jsSliceFrom, h1, h2]
  omega

/-- Invariant preservation by move. -/
theorem inv_moveOp (fidx tidx : Int) (s : PlayerState)
    (hs : queueInvariant s) : queueInvariant (moveOp fidx tidx s).1 := by
  obtain ⟨hs0, hsl⟩ := hs
  unfold moveOp
  split
  · exact ⟨hs0, hsl⟩
  · refine ⟨hs0, ?_⟩
    have hparts := length_jsSpliceRemove_parts s.queue (s.queuePosition + fidx) 1
    have hc := jsClamp_le
      (jsSpliceRemove s.queue (s.queuePosition + fidx) 1).2.length
      (s.queuePosition + tidx)
    show s.queuePosition ≤
      ((jsSliceTo (jsSpliceRemove s.queue (s.queuePosition + fidx) 1).2
          (s.queuePosition + tidx) ++
        (jsSpliceRemove s.queue (s.queuePosition + fidx) 1).1 ++
        jsSliceFrom (jsSpliceRemove s.queue (s.queuePosition + fidx) 1).2
          (s.queuePosition + tidx)).length : Int)
    simp only [List.length_append, length_jsSliceTo, length_jsSliceFrom]
    omega

/-- Invariant preservation by stop. -/
theorem inv_stopOp (s : PlayerState) : queueInvariant (stopOp s) := by
  exact ⟨le_refl 0,
    show (0 : Int) ≤ ((([] : List QueuedSong).length : Nat) : Int) from by decide⟩

/-- Invariant preservation by disconnect. -/
theorem inv_disconnectOp (s : PlayerState) (hs : queueInvariant s) :
    queueInvariant (disconnectOp s) := by
  obtain ⟨hq, hp⟩ := disconnectOp_frame s
  unfold queueInvariant at hs ⊢
  rw [hq, hp]
  exact hs

/-- Invariant preservation by pause. -/
theorem inv_pauseOp (s : PlayerState) (hs : queueInvariant s) :
    queueInvariant (pauseOp s).1 := by
  obtain ⟨hq, hp⟩ := pauseOp_frame s
  unfold queueInvariant at hs ⊢
  rw [hq, hp]
  exact hs

/-- C3 counterexample.  The claim says `0 ≤ cursor ≤ len(queue)` holds
after every public operation, whether it succeeds or raises.  On a
fresh engine with an empty queue and no settings row, `forward(0)`
passes the overflow check (`0 + 0 - 1 < 0`), reaches the idle branch,
fails on missing settings, and the catch handler decrements the cursor
to -1. -/
theorem c3_counterexample :
    queueInvariant initialState ∧
      (forwardCore envGone410NoSettings 0 initialState).1.queuePosition = -1 ∧
      ¬queueInvariant (forwardCore envGone410NoSettings 0 initialState).1 := by
  refine ⟨by decide, ?_, ?_⟩ <;> decide

/-- C3 amended.  The invariant `0 ≤ cursor ≤ len(queue)` is preserved by
every public operation — `play`, `pause`, `seek`, `forward`, `back`,
`add`, `shuffle` (for length-preserving randomness), `clear`,
`removeFromQueue`, `removeCurrent`, `move`, `stop`, `disconnect`,
`connect` — provided `forward` is called with `skip ≥ 1` and
`removeFromQueue` with a nonnegative index; `forward` with `skip ≤ 0`
can push the cursor below zero. -/
theorem c3_amended (env : Env) (s : PlayerState)
    (hs : queueInvariant s)
    (hshuf : ∀ l, (env.shuffleFn l).length = l.length) :
    queueInvariant (playGo env s).1 ∧
    queueInvariant (pauseOp s).1 ∧
    (∀ p : Int, queueInvariant (seekOp env p s).1) ∧
    (∀ skip : Int, 1 ≤ skip → queueInvariant (forwardCore env skip s).1) ∧
    queueInvariant (backOp env s).1 ∧
    (∀ (t : QueuedSong) (imm : Bool), queueInvariant (addOp t imm s)) ∧
    queueInvariant (shuffleOp env s) ∧
    queueInvariant (clearOp s) ∧
    (∀ index amount : Int, 0 ≤ index →
      queueInvariant (removeFromQueueOp index amount s)) ∧
    queueInvariant (removeCurrentOp s) ∧
    (∀ fidx tidx : Int, queueInvariant (moveOp fidx tidx s).1) ∧
    queueInvariant (stopOp s) ∧
    queueInvariant (disconnectOp s) ∧
    queueInvariant (connectOp s) := by
  refine ⟨inv_playGo env s hs, inv_pauseOp s hs,
    fun p => inv_seekOp env p s hs,
    fun skip hskip => inv_forwardCore env s skip hs hskip,
    inv_backOp env s hs,
    fun t imm => inv_addOp t imm s hs,
    inv_shuffleOp env s hshuf hs,
    inv_clearOp s,
    fun index amount hidx => inv_removeFromQueueOp index amount s hs hidx,
    inv_removeCurrentOp s hs,
    fun fidx tidx => inv_moveOp fidx tidx s hs,
    inv_stopOp s,
    inv_disconnectOp s hs,
    ?_⟩
  exact hs

/-- C3 witness. -/
theorem c3_amended_witness :
    queueInvariant (forwardCore envWait30 1 stateTwoSongs).1 ∧
      queueInvariant (backOp envWait30 stateTwoSongs).1 ∧
      queueInvariant (removeFromQueueOp 1 1 stateTwoSongs) := by
  have h := c3_amended envWait30 stateTwoSongs (by decide) (fun l => rfl)
  exact ⟨h.2.2.2.1 1 (by decide), h.2.2.2.2.1,
    h.2.2.2.2.2.2.2.2.1 1 1 (by decide)⟩
